import Mathlib

/-!
# Shallow embedding of the MABE2 core modules under verification

Doubles are modelled as rationals, bit genomes as lists of booleans, and the
shared random stream as an explicit function from draw index to rational.
Definitions follow the C++ source files under `src/` (file and symbol named at
each definition); parts of the repository that are referenced but absent from
`src/` are modelled from the specification and marked as such.
-/

namespace MABE

/-- A bit genome (`emp::BitVector` payload of a bit organism). -/
abbrev Genome := List Bool

/-- An organism as seen by `EvalNK::Evaluate` (src/source/evaluate/static/EvalNK.hpp):
its required `bits` trait, its owned `fitness` trait (`none` while unwritten),
and whether it is alive (the `GetAlive()` filter of the collection). -/
structure Org where
  bits : Genome
  fitness : Option ℚ := none
  alive : Bool := true
deriving DecidableEq, Repr

/-- The NK landscape state: configured `N` and `K` plus the `N × 2^(K+1)`
table of rationals (doubles in the source). -/
structure NKLandscape where
  N : Nat
  K : Nat
  table : List (List ℚ)
deriving DecidableEq, Repr

/-- Modelled from the spec: `src/tools/NK.hpp` (`NKLandscape::Config`) is not
under `src/`. "Landscape construction (at setup, and again on Reset): allocate
an N×2^(K+1) table of doubles; fill every cell with an independent uniform draw
from [0,1)."  The draws are taken in row-major order from the given stream. -/
def NKLandscape.Config (N K : Nat) (draws : Nat → ℚ) : NKLandscape :=
  { N := N
    K := K
    table := (List.range N).map fun i =>
      (List.range (2 ^ (K + 1))).map fun w => draws (i * 2 ^ (K + 1) + w) }

/-- The per-position table index `w_i = Σ_{j=0..K} g[(i+j) mod |g|] · 2^j`. -/
def nkIndex (g : Genome) (K i : Nat) : Nat :=
  ∑ j ∈ Finset.range (K + 1), (if g.getD ((i + j) % g.length) false then 2 ^ j else 0)

/-- Modelled from the spec: `src/tools/NK.hpp` (`NKLandscape::GetFitness`) is
not under `src/`. "Fitness evaluation for a genome g of length N: for each
position i ∈ [0,N), form the integer w_i = Σ_{j=0..K} g[(i+j) mod N] · 2^j;
look up table[i][w_i]; sum over i and divide by N." -/
def NKLandscape.GetFitness (L : NKLandscape) (g : Genome) : ℚ :=
  (∑ i ∈ Finset.range L.N, ((L.table.getD i []).getD (nkIndex g L.K i) 0)) / L.N

/-- The accumulator of `EvalNK::Evaluate`'s loop: `max_fitness`, whether
`max_org` is non-null yet, the organisms processed so far (with their written
`fitness` trait), and the number of per-organism errors reported so far. -/
structure EvalState where
  maxFitness : ℚ
  hasMaxOrg : Bool
  processed : List Org
  errCount : Nat
deriving DecidableEq, Repr

/-- One iteration of the loop body of `EvalNK::Evaluate`
(src/source/evaluate/static/EvalNK.hpp lines 52–67): report an error when the
genome length differs from `N` (the loop then falls through: there is no
`continue`), compute the landscape fitness, write the `fitness` trait, and
update the running maximum when `fitness > max_fitness || !max_org`. -/
def evalNKStep (N : Nat) (L : NKLandscape) (st : EvalState) (org : Org) : EvalState :=
  let err : Nat := if org.bits.length ≠ N then 1 else 0
  let fitness : ℚ := L.GetFitness org.bits
  let org' : Org := { org with fitness := some fitness }
  { maxFitness := if fitness > st.maxFitness || !st.hasMaxOrg then fitness else st.maxFitness
    hasMaxOrg := true
    processed := st.processed ++ [org']
    errCount := st.errCount + err }

namespace EvalNK

/-- `EvalNK::Evaluate` (src/source/evaluate/static/EvalNK.hpp lines 47–70):
filter the collection to its alive organisms, then run the evaluation loop
starting from `max_fitness = 0.0`, `max_org = nullptr`. -/
def Evaluate (N : Nat) (L : NKLandscape) (orgs : List Org) : EvalState :=
  (orgs.filter (·.alive)).foldl (evalNKStep N L) ⟨0, false, [], 0⟩

end EvalNK

/-- The written `fitness` trait of each organism, as produced by the loop. -/
def writeFitness (L : NKLandscape) (org : Org) : Org :=
  { org with fitness := some (L.GetFitness org.bits) }

/-- The max-tracking step in isolation: state `(max_fitness, max_org ≠ null)`. -/
def maxStep (st : ℚ × Bool) (f : ℚ) : ℚ × Bool :=
  (if f > st.1 || !st.2 then f else st.1, true)

theorem evalNKStep_processed (N : Nat) (L : NKLandscape) (st : EvalState) (org : Org) :
    (evalNKStep N L st org).processed = st.processed ++ [writeFitness L org] := rfl

/-- Generalized loop characterization: the loop appends the fitness-written
organisms in order, counts one error per wrong-length organism, and folds the
max over exactly the written fitness values. -/
theorem evalNK_foldl_spec (N : Nat) (L : NKLandscape) (alive : List Org) (st : EvalState) :
    (alive.foldl (evalNKStep N L) st).processed
        = st.processed ++ alive.map (writeFitness L)
    ∧ (alive.foldl (evalNKStep N L) st).errCount
        = st.errCount + (alive.filter (fun o => o.bits.length ≠ N)).length
    ∧ ((alive.foldl (evalNKStep N L) st).maxFitness,
        (alive.foldl (evalNKStep N L) st).hasMaxOrg)
        = (alive.map (fun o => L.GetFitness o.bits)).foldl maxStep
            (st.maxFitness, st.hasMaxOrg) := by
  induction alive generalizing st with
  | nil => simp
  | cons o rest ih =>
    obtain ⟨ih1, ih2, ih3⟩ := ih (evalNKStep N L st o)
    refine ⟨?_, ?_, ?_⟩
    · simp only [List.foldl_cons, ih1, evalNKStep_processed, List.map_cons,
        List.append_assoc, List.singleton_append]
    · rw [List.foldl_cons, ih2]
      by_cases h : o.bits.length ≠ N
      · simp [evalNKStep, h, List.filter_cons]
        omega
      · simp [evalNKStep, h, List.filter_cons]
    · simp only [List.foldl_cons, ih3, List.map_cons]
      rfl

theorem evaluate_processed (N : Nat) (L : NKLandscape) (orgs : List Org) :
    (EvalNK.Evaluate N L orgs).processed
      = (orgs.filter (·.alive)).map (writeFitness L) := by
  simpa using (evalNK_foldl_spec N L (orgs.filter (·.alive)) ⟨0, false, [], 0⟩).1

theorem evaluate_errCount (N : Nat) (L : NKLandscape) (orgs : List Org) :
    (EvalNK.Evaluate N L orgs).errCount
      = ((orgs.filter (·.alive)).filter (fun o => o.bits.length ≠ N)).length := by
  simpa using (evalNK_foldl_spec N L (orgs.filter (·.alive)) ⟨0, false, [], 0⟩).2.1

theorem evaluate_maxFitness (N : Nat) (L : NKLandscape) (orgs : List Org) :
    (EvalNK.Evaluate N L orgs).maxFitness
      = (((orgs.filter (·.alive)).map (fun o => L.GetFitness o.bits)).foldl
          maxStep (0, false)).1 := by
  have h := (evalNK_foldl_spec N L (orgs.filter (·.alive)) ⟨0, false, [], 0⟩).2.2
  simpa using congrArg Prod.fst h

end MABE

namespace MABE

/-- Default organism used for out-of-range `getD` accesses in statements. -/
def orgDefault : Org := ⟨[], none, true⟩

/-- A small concrete landscape (`N = 2`, `K = 0`) used by witnesses. -/
def nkL1 : NKLandscape := ⟨2, 0, [[(1 : ℚ)/2, 1/4], [3/4, 1/8]]⟩

/-- C1: for every organism with a bit genome of length `N` evaluated by
`EvalNK`, the value written to its `fitness` trait equals
`(1/N) · Σ_{i<N} table[i][w_i]` with `w_i = Σ_{j≤K} g[(i+j) mod N] · 2^j`,
and the max returned by `Evaluate` is folded over exactly these values. -/
theorem C1_evalNK_fitness_formula (N : Nat) (L : NKLandscape) (orgs : List Org)
    (idx : Nat) (hidx : idx < (orgs.filter (·.alive)).length) (hN : L.N = N)
    (hlen : ((orgs.filter (·.alive)).getD idx orgDefault).bits.length = N) :
    ((EvalNK.Evaluate N L orgs).processed.getD idx orgDefault).fitness
      = some ((1 / (N : ℚ)) *
          ∑ i ∈ Finset.range N,
            (L.table.getD i []).getD
              (∑ j ∈ Finset.range (L.K + 1),
                (if ((orgs.filter (·.alive)).getD idx orgDefault).bits.getD ((i + j) % N) false
                 then 2 ^ j else 0)) 0)
    ∧ (EvalNK.Evaluate N L orgs).maxFitness
      = (((orgs.filter (·.alive)).map (fun o => L.GetFitness o.bits)).foldl
          maxStep (0, false)).1 := by
  constructor
  · rw [evaluate_processed]
    have hidx' : idx < ((orgs.filter (·.alive)).map (writeFitness L)).length := by
      simpa using hidx
    rw [List.getD_eq_getElem _ _ hidx', List.getElem_map,
        List.getD_eq_getElem _ _ hidx]
    show some (L.GetFitness _) = _
    rw [List.getD_eq_getElem _ _ hidx] at hlen
    unfold NKLandscape.GetFitness nkIndex
    rw [hN, hlen, one_div_mul_eq_div]
  · exact evaluate_maxFitness N L orgs

/-- Witness for C1 at a concrete landscape and organism. -/
theorem C1_evalNK_fitness_formula_witness :
    ((EvalNK.Evaluate 2 nkL1 [⟨[true, false], none, true⟩]).processed.getD 0 orgDefault).fitness
      = some ((1 / (2 : ℚ)) *
          ∑ i ∈ Finset.range 2,
            (nkL1.table.getD i []).getD
              (∑ j ∈ Finset.range (nkL1.K + 1),
                (if (([(⟨[true, false], none, true⟩ : Org)].filter (·.alive)).getD 0
                        orgDefault).bits.getD ((i + j) % 2) false
                 then 2 ^ j else 0)) 0)
    ∧ (EvalNK.Evaluate 2 nkL1 [⟨[true, false], none, true⟩]).maxFitness
      = ((([(⟨[true, false], none, true⟩ : Org)].filter (·.alive)).map
            (fun o => nkL1.GetFitness o.bits)).foldl maxStep (0, false)).1 :=
  C1_evalNK_fitness_formula 2 nkL1 [⟨[true, false], none, true⟩] 0
    (by decide) rfl (by decide)

/-- C9: evaluating a collection whose alive sub-collection is empty returns 0,
writes no trait on any organism, and reports no error. -/
theorem C9_evaluate_empty (N : Nat) (L : NKLandscape) (orgs : List Org)
    (h : orgs.filter (·.alive) = []) :
    (EvalNK.Evaluate N L orgs).maxFitness = 0
    ∧ (EvalNK.Evaluate N L orgs).processed = []
    ∧ (EvalNK.Evaluate N L orgs).errCount = 0 := by
  unfold EvalNK.Evaluate
  rw [h]
  exact ⟨rfl, rfl, rfl⟩

/-- Witness for C9: a collection holding only a dead organism. -/
theorem C9_evaluate_empty_witness :
    (EvalNK.Evaluate 2 nkL1 [⟨[true, false], none, false⟩]).maxFitness = 0
    ∧ (EvalNK.Evaluate 2 nkL1 [⟨[true, false], none, false⟩]).processed = []
    ∧ (EvalNK.Evaluate 2 nkL1 [⟨[true, false], none, false⟩]).errCount = 0 :=
  C9_evaluate_empty 2 nkL1 [⟨[true, false], none, false⟩] (by decide)

/-- C2 counterexample: with `N = 2` and a single alive organism whose genome
has length 1, `EvalNK::Evaluate` reports the error but does NOT skip the
organism: its `fitness` trait is written (to `3/16`, the landscape value) and
it is the organism producing the returned maximum — contradicting the claim
that a wrong-length organism gets no `fitness` trait and is excluded from the
max. -/
theorem C2_counterexample :
    (EvalNK.Evaluate 2 nkL1 [⟨[true], none, true⟩]).errCount = 1
    ∧ ((EvalNK.Evaluate 2 nkL1 [⟨[true], none, true⟩]).processed.getD 0 orgDefault).fitness
        = some (3/16)
    ∧ (EvalNK.Evaluate 2 nkL1 [⟨[true], none, true⟩]).maxFitness = 3/16 := by
  have h1 : ([(2:ℚ)⁻¹, 4⁻¹] : List ℚ)[1] = 4⁻¹ := rfl
  have h2 : ([(3:ℚ)/4, 8⁻¹] : List ℚ)[1] = 8⁻¹ := rfl
  refine ⟨rfl, ?_, ?_⟩ <;>
    simp [EvalNK.Evaluate, evalNKStep, nkL1, NKLandscape.GetFitness, nkIndex,
      orgDefault, Finset.sum_range_succ] <;>
    rw [h1, h2] <;> norm_num

/-- C2 (amended): a wrong-length organism triggers a per-organism error report,
but the loop body falls through: the organism's `fitness` trait is still
written from the landscape and every alive organism (including wrong-length
ones) is processed, so the run continues. -/
theorem C2_wrong_length_reported_not_skipped (N : Nat) (L : NKLandscape)
    (orgs : List Org) (idx : Nat)
    (hidx : idx < (orgs.filter (·.alive)).length)
    (hlen : ((orgs.filter (·.alive)).getD idx orgDefault).bits.length ≠ N) :
    1 ≤ (EvalNK.Evaluate N L orgs).errCount
    ∧ ((EvalNK.Evaluate N L orgs).processed.getD idx orgDefault).fitness
        = some (L.GetFitness ((orgs.filter (·.alive)).getD idx orgDefault).bits)
    ∧ (EvalNK.Evaluate N L orgs).processed.length
        = (orgs.filter (·.alive)).length := by
  refine ⟨?_, ?_, ?_⟩
  · rw [evaluate_errCount]
    have hmem : (orgs.filter (·.alive)).getD idx orgDefault
        ∈ (orgs.filter (·.alive)).filter (fun o => o.bits.length ≠ N) := by
      rw [List.mem_filter]
      exact ⟨by rw [List.getD_eq_getElem _ _ hidx]; exact List.getElem_mem hidx,
             by simpa using hlen⟩
    exact List.length_pos.mpr (List.ne_nil_of_mem hmem)
  · rw [evaluate_processed]
    have hidx' : idx < ((orgs.filter (·.alive)).map (writeFitness L)).length := by
      simpa using hidx
    rw [List.getD_eq_getElem _ _ hidx', List.getElem_map,
        List.getD_eq_getElem _ _ hidx]
    rfl
  · rw [evaluate_processed, List.length_map]

/-- Witness for the amended C2 at the concrete wrong-length input. -/
theorem C2_wrong_length_reported_not_skipped_witness :
    1 ≤ (EvalNK.Evaluate 2 nkL1 [⟨[true], none, true⟩]).errCount
    ∧ ((EvalNK.Evaluate 2 nkL1 [⟨[true], none, true⟩]).processed.getD 0 orgDefault).fitness
        = some (nkL1.GetFitness (([(⟨[true], none, true⟩ : Org)].filter
            (·.alive)).getD 0 orgDefault).bits)
    ∧ (EvalNK.Evaluate 2 nkL1 [⟨[true], none, true⟩]).processed.length
        = ([(⟨[true], none, true⟩ : Org)].filter (·.alive)).length :=
  C2_wrong_length_reported_not_skipped 2 nkL1 [⟨[true], none, true⟩] 0
    (by decide) (by decide)

end MABE

namespace MABE

/-- One trial of the mutation function: the drawn position (`random.GetUInt(N)`)
and the outcome of the `random.P(0.5)` coin. -/
structure MutTrial where
  pos : Nat
  doFlip : Bool
deriving DecidableEq, Repr

/-- The body of one trial of `mut_fun` (src/examples/NK.cc lines 73–84):
when the coin is heads, flip bit `pos` (`org[pos] ^= 1`) and count the flip. -/
def mutStep (acc : Genome × Nat) (t : MutTrial) : Genome × Nat :=
  if t.doFlip then (acc.1.set t.pos (!acc.1.getD t.pos false), acc.2 + 1) else acc

/-- `mut_fun` (src/examples/NK.cc lines 73–84): run the `mut_count` trials in
order starting from `num_muts = 0`; return the mutated genome and `num_muts`. -/
def mutFun (trials : List MutTrial) (g : Genome) : Genome × Nat :=
  trials.foldl mutStep (g, 0)

/-- The genome component of the trials alone. -/
def applyTrials (trials : List MutTrial) (g : Genome) : Genome :=
  trials.foldl (fun h t => if t.doFlip then h.set t.pos (!h.getD t.pos false) else h) g

/-- The positions actually flipped (one entry per performed flip, in order). -/
def flips (trials : List MutTrial) : List Nat :=
  (trials.filter (·.doFlip)).map (·.pos)

/-- Number of positions at which two genomes differ. -/
def diffCount (g g' : Genome) : Nat :=
  ((Finset.range g.length).filter (fun i => g.getD i false ≠ g'.getD i false)).card

theorem applyTrials_cons (t : MutTrial) (rest : List MutTrial) (g : Genome) :
    applyTrials (t :: rest) g
      = applyTrials rest (if t.doFlip then g.set t.pos (!g.getD t.pos false) else g) := by
  simp only [applyTrials, List.foldl_cons]

theorem mutFun_foldl (trials : List MutTrial) (g : Genome) (n : Nat) :
    trials.foldl mutStep (g, n)
      = (applyTrials trials g, n + (trials.filter (·.doFlip)).length) := by
  induction trials generalizing g n with
  | nil => simp [applyTrials]
  | cons t rest ih =>
    rw [List.foldl_cons, applyTrials_cons]
    by_cases ht : t.doFlip
    · have hstep : mutStep (g, n) t = (g.set t.pos (!g.getD t.pos false), n + 1) := by
        simp [mutStep, ht]
      rw [hstep, ih]
      simp [ht, List.filter_cons, Prod.ext_iff]
      omega
    · have hstep : mutStep (g, n) t = (g, n) := by simp [mutStep, ht]
      rw [hstep, ih]
      simp [ht, List.filter_cons]

theorem getD_set_self {α : Type} (l : List α) (n : Nat) (a d : α) (h : n < l.length) :
    (l.set n a).getD n d = a := by
  rw [List.getD_eq_getElem _ _ (by simpa using h)]
  simp [List.getElem_set]

theorem getD_set_ne {α : Type} (l : List α) {m n : Nat} (a d : α) (h : m ≠ n) :
    (l.set m a).getD n d = l.getD n d := by
  simp [List.getD, List.getElem?_set_ne h]

/-- Pointwise effect of the trials when every performed flip hits a distinct
in-range position: exactly the flipped positions are toggled. -/
theorem applyTrials_getD (trials : List MutTrial) (g : Genome)
    (hnd : (flips trials).Nodup) (hlt : ∀ p ∈ flips trials, p < g.length)
    (i : Nat) :
    (applyTrials trials g).getD i false
      = if i ∈ flips trials then !g.getD i false else g.getD i false := by
  induction trials generalizing g with
  | nil => simp [applyTrials, flips]
  | cons t rest ih =>
    rw [applyTrials_cons]
    by_cases ht : t.doFlip
    · have hflips : flips (t :: rest) = t.pos :: flips rest := by
        simp [flips, List.filter_cons, ht]
      rw [hflips] at hnd hlt ⊢
      have hpos : t.pos < g.length := hlt t.pos (List.mem_cons_self _ _)
      have hnotin : t.pos ∉ flips rest := (List.nodup_cons.mp hnd).1
      have hnd' : (flips rest).Nodup := (List.nodup_cons.mp hnd).2
      have hlt' : ∀ p ∈ flips rest, p < (g.set t.pos (!g.getD t.pos false)).length := by
        intro p hp
        rw [List.length_set]
        exact hlt p (List.mem_cons_of_mem _ hp)
      rw [if_pos ht, ih _ hnd' hlt']
      by_cases hi : i ∈ flips rest
      · have hne : t.pos ≠ i := fun h => hnotin (h ▸ hi)
        rw [if_pos hi, if_pos (List.mem_cons_of_mem _ hi), getD_set_ne _ _ _ hne]
      · by_cases hit : i = t.pos
        · subst hit
          rw [if_neg hi, if_pos (List.mem_cons_self _ _), getD_set_self _ _ _ _ hpos]
        · have : i ∉ t.pos :: flips rest := by
            intro h
            rcases List.mem_cons.mp h with h | h
            · exact hit h
            · exact hi h
          rw [if_neg hi, if_neg this, getD_set_ne _ _ _ (fun h => hit h.symm)]
    · have hflips : flips (t :: rest) = flips rest := by
        simp [flips, List.filter_cons, ht]
      rw [hflips] at hnd hlt ⊢
      rw [if_neg ht]
      exact ih g hnd hlt

theorem diffCount_applyTrials (trials : List MutTrial) (g : Genome)
    (hnd : (flips trials).Nodup) (hlt : ∀ p ∈ flips trials, p < g.length) :
    diffCount g (applyTrials trials g) = (flips trials).length := by
  unfold diffCount
  have h1 : ((Finset.range g.length).filter
        (fun i => g.getD i false ≠ (applyTrials trials g).getD i false))
      = (Finset.range g.length).filter (fun i => i ∈ flips trials) := by
    apply Finset.filter_congr
    intro i _
    rw [applyTrials_getD trials g hnd hlt i]
    by_cases hin : i ∈ flips trials <;> simp [hin]
  rw [h1]
  have h2 : (Finset.range g.length).filter (fun i => i ∈ flips trials)
      = (flips trials).toFinset := by
    ext i
    simp only [Finset.mem_filter, Finset.mem_range, List.mem_toFinset]
    exact ⟨fun h => h.2, fun h => ⟨hlt i h, h⟩⟩
  rw [h2, List.toFinset_card_of_nodup hnd]

/-- C3 counterexample: with a one-bit genome and two trials that both flip
position 0, `mut_fun` returns 2, yet the genome is back to its pre-mutation
state (0 differing positions) — so the returned value is NOT the number of
positions at which the genome differs from its pre-mutation state. -/
theorem C3_counterexample :
    (mutFun [⟨0, true⟩, ⟨0, true⟩] [false]).2
      ≠ diffCount [false] (mutFun [⟨0, true⟩, ⟨0, true⟩] [false]).1 := by
  decide

/-- C3 (amended): the value returned by `mut_fun` equals the number of flip
events performed (trials whose coin came up heads); when the performed flips
hit pairwise-distinct in-range positions, this also equals the number of
positions at which the genome differs from its pre-mutation state. -/
theorem C3_mutate_realized_count (trials : List MutTrial) (g : Genome)
    (hnd : (flips trials).Nodup) (hlt : ∀ p ∈ flips trials, p < g.length) :
    (mutFun trials g).2 = (trials.filter (·.doFlip)).length
    ∧ diffCount g (mutFun trials g).1 = (mutFun trials g).2 := by
  have hm : mutFun trials g = (applyTrials trials g, (trials.filter (·.doFlip)).length) := by
    unfold mutFun
    rw [mutFun_foldl]
    simp
  refine ⟨by rw [hm], ?_⟩
  rw [hm]
  show diffCount g (applyTrials trials g) = _
  rw [diffCount_applyTrials trials g hnd hlt]
  simp [flips]

/-- Witness for the amended C3: three trials, two performed flips at distinct
positions of a three-bit genome. -/
theorem C3_mutate_realized_count_witness :
    (mutFun [⟨0, true⟩, ⟨1, false⟩, ⟨2, true⟩] [false, true, false]).2
        = ([(⟨0, true⟩ : MutTrial), ⟨1, false⟩, ⟨2, true⟩].filter (·.doFlip)).length
    ∧ diffCount [false, true, false]
          (mutFun [⟨0, true⟩, ⟨1, false⟩, ⟨2, true⟩] [false, true, false]).1
        = (mutFun [⟨0, true⟩, ⟨1, false⟩, ⟨2, true⟩] [false, true, false]).2 :=
  C3_mutate_realized_count [⟨0, true⟩, ⟨1, false⟩, ⟨2, true⟩] [false, true, false]
    (by decide) (by decide)

end MABE

namespace MABE

/-- An organism as seen by `EvalAntagonistic::Evaluate`
(src/source/evaluate/static/EvalAntagonistic.hpp): the required `vals`
multi-trait and the owned `scores`, `total`, `first`, `active_count` traits. -/
structure AntOrg where
  vals : List ℚ
  scores : List ℚ := []
  total : ℚ := 0
  first : Nat := 0
  active_count : Nat := 0
  alive : Bool := true
deriving DecidableEq, Repr

/-- Default organism used for out-of-range `getD` accesses in statements. -/
def antOrgDefault : AntOrg := ⟨[], [], 0, 0, 0, true⟩

/-- `emp::FindMaxIndex` (external Empirical library, not repository code):
the first index holding the maximum value of the list; 0 on an empty list. -/
def FindMaxIndex (vals : List ℚ) : Nat :=
  (List.range vals.length).foldl
    (fun best i => if vals.getD i 0 > vals.getD best 0 then i else best) 0

/-- The value stored by the in-loop write of `EvalAntagonistic::Evaluate`
(line 91): `vals[i] - Sum(vals)/2 + vals[i]/2`. -/
def antLoopVal (vals : List ℚ) (i : Nat) : ℚ :=
  vals.getD i 0 - vals.sum / 2 + vals.getD i 0 / 2

/-- The ordered sequence of writes into the `scores` span performed for one
organism by `EvalAntagonistic::Evaluate` (lines 75–94): first the marking
write `scores[pos] = vals[pos]` (line 81, `pos = FindMaxIndex(vals)`), then
the loop writes `scores[i] = vals[i] - Sum(vals)/2 + vals[i]/2` for every
`i < vals.size()` (lines 87–94; the `if (i == pos)` guard is commented out). -/
def antScoreWrites (vals : List ℚ) : List (Nat × ℚ) :=
  (FindMaxIndex vals, vals.getD (FindMaxIndex vals) 0) ::
    (List.range vals.length).map (fun i => (i, antLoopVal vals i))

/-- Applying a write sequence to the `scores` buffer (arity `n`; the initial
contents are irrelevant to the final state since the loop overwrites every
index, but we start from the span's default-initialized storage). -/
def applyWrites (n : Nat) (ws : List (Nat × ℚ)) : List ℚ :=
  ws.foldl (fun arr w => arr.set w.1 w.2) (List.replicate n 0)

/-- All traits written for one organism by the body of the evaluation loop:
`scores` as the net effect of the write sequence, `total` as
`vals[pos]` (line 81) plus the sum of all loop scores (line 93), `first` as
`pos`, and `active_count` as 1. -/
def writeAntTraits (org : AntOrg) : AntOrg :=
  let vals := org.vals
  let pos := FindMaxIndex vals
  { org with
    scores := applyWrites vals.length (antScoreWrites vals)
    total := vals.getD pos 0 + ((List.range vals.length).map (antLoopVal vals)).sum
    first := pos
    active_count := 1 }

/-- The loop accumulator of `EvalAntagonistic::Evaluate`: `max_total`,
whether `max_org` is non-null, and the organisms processed so far. -/
structure AntState where
  maxTotal : ℚ
  hasMaxOrg : Bool
  processed : List AntOrg
deriving DecidableEq, Repr

/-- One iteration of `EvalAntagonistic::Evaluate`'s loop (lines 64–100). -/
def evalAntStep (st : AntState) (org : AntOrg) : AntState :=
  let org' := writeAntTraits org
  { maxTotal := if org'.total > st.maxTotal || !st.hasMaxOrg then org'.total else st.maxTotal
    hasMaxOrg := true
    processed := st.processed ++ [org'] }

namespace EvalAntagonistic

/-- `EvalAntagonistic::Evaluate` (src/source/evaluate/static/EvalAntagonistic.hpp
lines 57–102): loop over the alive organisms from `max_total = 0.0`. -/
def Evaluate (orgs : List AntOrg) : AntState :=
  (orgs.filter (·.alive)).foldl evalAntStep ⟨0, false, []⟩

end EvalAntagonistic

theorem evalAnt_foldl_processed (alive : List AntOrg) (st : AntState) :
    (alive.foldl evalAntStep st).processed
      = st.processed ++ alive.map writeAntTraits := by
  induction alive generalizing st with
  | nil => simp
  | cons o rest ih =>
    rw [List.foldl_cons, ih]
    simp [evalAntStep]

theorem evalAnt_processed (orgs : List AntOrg) :
    (EvalAntagonistic.Evaluate orgs).processed
      = (orgs.filter (·.alive)).map writeAntTraits := by
  simpa using evalAnt_foldl_processed (orgs.filter (·.alive)) ⟨0, false, []⟩

/-- The fold of `FindMaxIndex` keeps the best index inside the processed list,
so on a nonempty list the result is in range. -/
theorem FindMaxIndex_lt_length (vals : List ℚ) (h : vals ≠ []) :
    FindMaxIndex vals < vals.length := by
  have hlen : 0 < vals.length := List.length_pos.mpr h
  have key : ∀ (l : List Nat) (b : Nat), b < vals.length →
      (∀ i ∈ l, i < vals.length) →
      l.foldl (fun best i => if vals.getD i 0 > vals.getD best 0 then i else best) b
        < vals.length := by
    intro l
    induction l with
    | nil => intro b hb _; simpa using hb
    | cons x xs ih =>
      intro b hb hl
      rw [List.foldl_cons]
      by_cases hx : vals.getD x 0 > vals.getD b 0
      · rw [if_pos hx]
        exact ih x (hl x (List.mem_cons_self _ _)) (fun i hi => hl i (List.mem_cons_of_mem _ hi))
      · rw [if_neg hx]
        exact ih b hb (fun i hi => hl i (List.mem_cons_of_mem _ hi))
  exact key (List.range vals.length) 0 hlen (fun i hi => List.mem_range.mp hi)

/-- Net effect of index-tagged writes on a buffer, pointwise. -/
theorem foldl_set_getD (l : List Nat) (f : Nat → ℚ) (arr : List ℚ) (j : Nat)
    (hj : j < arr.length) :
    ((l.map (fun i => (i, f i))).foldl (fun a w => a.set w.1 w.2) arr).getD j 0
      = if j ∈ l then f j else arr.getD j 0 := by
  induction l generalizing arr with
  | nil => simp
  | cons i rest ih =>
    rw [List.map_cons, List.foldl_cons]
    have hlen : (arr.set i (f i)).length = arr.length := List.length_set ..
    rw [ih (arr.set i (f i)) (by rwa [hlen])]
    by_cases hr : j ∈ rest
    · rw [if_pos hr, if_pos (List.mem_cons_of_mem _ hr)]
    · by_cases hij : j = i
      · subst hij
        rw [if_neg hr, if_pos (List.mem_cons_self _ _), getD_set_self _ _ _ _ hj]
      · have : j ∉ i :: rest := by
          intro hmem
          rcases List.mem_cons.mp hmem with hmem | hmem
          · exact hij hmem
          · exact hr hmem
        rw [if_neg hr, if_neg this, getD_set_ne _ _ _ (fun hc => hij hc.symm)]

/-- How many of range-tagged writes target a fixed in-range index: exactly one. -/
theorem range_filter_eq_length (n pos : Nat) (h : pos < n) :
    ((List.range n).filter (fun i => i = pos)).length = 1 := by
  have h1 : List.count pos (List.range n) = 1 :=
    List.count_eq_one_of_mem (List.nodup_range n) (by simpa using h)
  rw [List.count, List.countP_eq_length_filter] at h1
  rw [← h1]
  congr 1

end MABE

namespace MABE

/-- C10: for every evaluated organism, `scores[pos]` (`pos` the index of the
maximum of `vals`) is written exactly twice by `EvalAntagonistic::Evaluate` —
once by the marking write and once by the loop — and the second, in-loop write
is authoritative: the final value of `scores[pos]` is
`vals[pos] - Sum(vals)/2 + vals[pos]/2`. -/
theorem C10_ant_double_write (orgs : List AntOrg) (idx : Nat) (vals : List ℚ)
    (pos : Nat)
    (hidx : idx < (orgs.filter (·.alive)).length)
    (hv : vals = ((orgs.filter (·.alive)).getD idx antOrgDefault).vals)
    (hp : pos = FindMaxIndex vals)
    (hne : vals ≠ []) :
    ((antScoreWrites vals).filter (fun w => w.1 = pos)).length = 2
    ∧ ((EvalAntagonistic.Evaluate orgs).processed.getD idx antOrgDefault).scores.getD pos 0
        = vals.getD pos 0 - vals.sum / 2 + vals.getD pos 0 / 2 := by
  have hposlt : pos < vals.length := by
    rw [hp]
    exact FindMaxIndex_lt_length vals hne
  constructor
  · subst hp
    rw [antScoreWrites, List.filter_cons]
    rw [if_pos (by simp)]
    rw [List.length_cons]
    have hsplit : ((List.range vals.length).map (fun i => (i, antLoopVal vals i))).filter
          (fun w => w.1 = FindMaxIndex vals)
        = ((List.range vals.length).filter (fun i => i = FindMaxIndex vals)).map
          (fun i => (i, antLoopVal vals i)) := by
      rw [List.filter_map]
      rfl
    rw [hsplit, List.length_map, range_filter_eq_length _ _ hposlt]
  · rw [evalAnt_processed]
    have hidx' : idx < ((orgs.filter (·.alive)).map writeAntTraits).length := by
      simpa using hidx
    rw [List.getD_eq_getElem _ _ hidx] at hv
    rw [List.getD_eq_getElem _ _ hidx', List.getElem_map]
    simp only [writeAntTraits]
    rw [← hv]
    show (applyWrites vals.length (antScoreWrites vals)).getD pos 0 = _
    rw [antScoreWrites, applyWrites, List.foldl_cons]
    have harr : ((List.replicate vals.length (0:ℚ)).set (FindMaxIndex vals)
        (vals.getD (FindMaxIndex vals) 0)).length = vals.length := by simp
    rw [foldl_set_getD _ (antLoopVal vals) _ pos (by rw [harr]; exact hposlt)]
    rw [if_pos (List.mem_range.mpr hposlt)]
    rfl

/-- Witness for C10 at `vals = [1, 3, 2]` (maximum at index 1). -/
theorem C10_ant_double_write_witness :
    ((antScoreWrites [1, 3, 2]).filter
        (fun w => w.1 = FindMaxIndex [1, 3, 2])).length = 2
    ∧ ((EvalAntagonistic.Evaluate [⟨[1, 3, 2], [], 0, 0, 0, true⟩]).processed.getD 0
          antOrgDefault).scores.getD (FindMaxIndex [1, 3, 2]) 0
        = ([1, 3, 2] : List ℚ).getD (FindMaxIndex [1, 3, 2]) 0
          - ([1, 3, 2] : List ℚ).sum / 2
          + ([1, 3, 2] : List ℚ).getD (FindMaxIndex [1, 3, 2]) 0 / 2 :=
  C10_ant_double_write [⟨[1, 3, 2], [], 0, 0, 0, true⟩] 0 [1, 3, 2]
    (FindMaxIndex [1, 3, 2]) (by decide) rfl rfl (List.cons_ne_nil _ _)

end MABE

namespace MABE

/-- Post-setup events that can touch an `EvalNK` module's landscape: an `EVAL`
call on a collection, or a `RESET` — both exposed to the config script by
`EvalModule::InitType` (src/source/core/EvalModule.hpp lines 33–40). -/
inductive NKEvent
  | evaluate (orgs : List Org)
  | reset
deriving DecidableEq, Repr

/-- The run state of an `EvalNK` module: its landscape, the current position
of the shared random stream, and the log of evaluation results so far. -/
structure NKRunState where
  landscape : NKLandscape
  offset : Nat
  log : List EvalState

/-- `EvalNK::SetupModule` (src/source/evaluate/static/EvalNK.hpp lines 42–45):
configure the landscape from the shared stream, consuming `N·2^(K+1)` draws. -/
def nkSetup (N K : Nat) (draws : Nat → ℚ) : NKRunState :=
  { landscape := NKLandscape.Config N K draws
    offset := N * 2 ^ (K + 1)
    log := [] }

/-- One post-setup event: `Evaluate` (lines 47–70) reads the landscape and
writes fitness traits without touching the table; `Reset` (lines 72–76)
re-runs `Config` on fresh draws from the shared stream. -/
def nkStep (N K : Nat) (draws : Nat → ℚ) (st : NKRunState) : NKEvent → NKRunState
  | .evaluate orgs =>
      { st with log := st.log ++ [EvalNK.Evaluate N st.landscape orgs] }
  | .reset =>
      { landscape := NKLandscape.Config N K (fun n => draws (st.offset + n))
        offset := st.offset + N * 2 ^ (K + 1)
        log := st.log }

/-- A whole run of one `EvalNK` module: setup, then the event sequence. -/
def nkRun (N K : Nat) (draws : Nat → ℚ) (events : List NKEvent) : NKRunState :=
  events.foldl (nkStep N K draws) (nkSetup N K draws)

/-- A stream whose first landscape-full of draws differs from the next. -/
def c5draws : Nat → ℚ := fun n => if n ≤ 1 then 0 else 1

/-- C5 counterexample: with `N = 1`, `K = 0` and a `RESET` event after setup,
the table cell `table[0][0]` reads 0 right after `SetupModule` but 1 at the
end of the run — the table filled at setup does NOT stay unchanged for the
remaining lifetime of the run, because `Reset` re-randomizes it. -/
theorem C5_counterexample :
    (nkRun 1 0 c5draws [NKEvent.reset]).landscape.table
      ≠ (nkSetup 1 0 c5draws).landscape.table := by
  have h1 : (nkRun 1 0 c5draws [NKEvent.reset]).landscape.table = [[1, 1]] := by
    simp [nkRun, nkStep, nkSetup, NKLandscape.Config, c5draws, List.range_succ]
  have h2 : (nkSetup 1 0 c5draws).landscape.table = [[0, 0]] := by
    simp [nkSetup, NKLandscape.Config, c5draws, List.range_succ]
  rw [h1, h2]
  intro h
  simp at h

theorem nkStep_landscape_of_ne_reset (N K : Nat) (draws : Nat → ℚ)
    (st : NKRunState) (e : NKEvent) (he : e ≠ NKEvent.reset) :
    (nkStep N K draws st e).landscape = st.landscape
    ∧ (nkStep N K draws st e).offset = st.offset := by
  cases e with
  | evaluate orgs => exact ⟨rfl, rfl⟩
  | reset => exact absurd rfl he

theorem nkRun_foldl_no_reset (N K : Nat) (draws : Nat → ℚ) (events : List NKEvent)
    (h : NKEvent.reset ∉ events) (st : NKRunState) :
    (events.foldl (nkStep N K draws) st).landscape = st.landscape := by
  induction events generalizing st with
  | nil => rfl
  | cons e rest ih =>
    have he : e ≠ NKEvent.reset := fun hc => h (hc ▸ List.mem_cons_self _ _)
    have hr : NKEvent.reset ∉ rest := fun hc => h (List.mem_cons_of_mem _ hc)
    rw [List.foldl_cons, ih hr, (nkStep_landscape_of_ne_reset N K draws st e he).1]

/-- C5 (amended): the landscape table changes only at `Config` calls
(`SetupModule` or `Reset`): `Evaluate` never modifies it, so across any event
sequence containing no `Reset` the table stays exactly the one filled at
setup, and every fitness lookup between two consecutive `Config` calls reads
the same table values. -/
theorem C5_table_immutable_without_reset (N K : Nat) (draws : Nat → ℚ)
    (events : List NKEvent) (h : NKEvent.reset ∉ events) :
    (nkRun N K draws events).landscape = NKLandscape.Config N K draws := by
  unfold nkRun
  rw [nkRun_foldl_no_reset N K draws events h (nkSetup N K draws)]
  rfl

/-- Witness for the amended C5: two evaluation events, no reset. -/
theorem C5_table_immutable_without_reset_witness :
    (nkRun 1 0 c5draws
        [NKEvent.evaluate [⟨[true], none, true⟩], NKEvent.evaluate []]).landscape
      = NKLandscape.Config 1 0 c5draws :=
  C5_table_immutable_without_reset 1 0 c5draws
    [NKEvent.evaluate [⟨[true], none, true⟩], NKEvent.evaluate []] (by decide)

/-- Modelled from the spec: the random source (`emp::Random`,
`control.GetRandom()`) is not under `src/`; "Random source: deterministic
pseudo-random stream seeded at startup". A concrete deterministic stream of
rationals in [0,1), a pure function of the seed. -/
def randStream (seed : Nat) : Nat → ℚ :=
  fun n => ((((seed + 1) * 48271 + n * 16807) % 2147483647 : Nat) : ℚ) / 2147483647

/-- One run's `EvalNK` pipeline: `SetupModule` builds the landscape from the
seed-determined stream, then `Evaluate` scores the collection
(src/source/evaluate/static/EvalNK.hpp lines 42–70). -/
def runEvalNK (seed N K : Nat) (orgs : List Org) : EvalState :=
  EvalNK.Evaluate N (NKLandscape.Config N K (randStream seed)) orgs

theorem mem_processed_fitness (N : Nat) (L : NKLandscape) (orgs : List Org)
    (o : Org) (h : o ∈ (EvalNK.Evaluate N L orgs).processed) :
    o.fitness = some (L.GetFitness o.bits) := by
  rw [evaluate_processed] at h
  obtain ⟨a, _, rfl⟩ := List.mem_map.mp h
  rfl

/-- C6: two runs with the same seed and the same configured `N` and `K`
write bit-identical `fitness` values for the same genome, regardless of what
other organisms populate the two runs and where in the collection the genome
sits. -/
theorem C6_nk_determinism (seed1 seed2 N1 N2 K1 K2 : Nat)
    (orgs1 orgs2 : List Org) (o1 o2 : Org) (g : Genome)
    (hseed : seed1 = seed2) (hN : N1 = N2) (hK : K1 = K2)
    (h1 : o1 ∈ (runEvalNK seed1 N1 K1 orgs1).processed)
    (h2 : o2 ∈ (runEvalNK seed2 N2 K2 orgs2).processed)
    (hg1 : o1.bits = g) (hg2 : o2.bits = g) :
    o1.fitness = o2.fitness := by
  subst hseed
  subst hN
  subst hK
  have e1 := mem_processed_fitness _ _ _ _ h1
  have e2 := mem_processed_fitness _ _ _ _ h2
  rw [e1, e2, hg1, hg2]

/-- Witness for C6: the genome `[true]` evaluated in two different
populations under the same seed and configuration. -/
theorem C6_nk_determinism_witness :
    (writeFitness (NKLandscape.Config 1 0 (randStream 0)) ⟨[true], none, true⟩).fitness
      = (writeFitness (NKLandscape.Config 1 0 (randStream 0)) ⟨[true], some 5, true⟩).fitness :=
  C6_nk_determinism 0 0 1 1 0 0
    [⟨[true], none, true⟩]
    [⟨[false], none, true⟩, ⟨[true], some 5, true⟩]
    (writeFitness (NKLandscape.Config 1 0 (randStream 0)) ⟨[true], none, true⟩)
    (writeFitness (NKLandscape.Config 1 0 (randStream 0)) ⟨[true], some 5, true⟩)
    [true] rfl rfl rfl
    (by rw [runEvalNK, evaluate_processed]
        exact List.mem_map_of_mem _ (by simp))
    (by rw [runEvalNK, evaluate_processed]
        exact List.mem_map_of_mem _ (by simp))
    rfl rfl

end MABE

namespace MABE

/-- The value types a `ManagerData` field can hold (the field types exercised
by the unit test: double, size_t, bool, string). -/
inductive TraitVal
  | q (v : ℚ)
  | n (v : Nat)
  | b (v : Bool)
  | s (v : String)
deriving DecidableEq, Repr

/-- The fields of `VirtualCPUOrg::ManagerData` exercised by the unit test
(src/tests/unit/orgs/VirtualCPUOrg.cpp lines 63–117). -/
inductive MDField
  | mutProb | initLength | initRandom | evalTime | inputName | outputName
  | meritName | genomeName | childMeritName | initialMerit | verbose
  | initialGenomeFilename | expandedNopArgs
deriving DecidableEq, Repr

/-- One `ManagerData` record, as a map from field to value. -/
def ManagerData : Type := MDField → TraitVal

/-- Default record used for out-of-range accesses in statements. -/
def defaultMD : ManagerData := fun _ => TraitVal.b false

/-- A world of factory modules, each holding its single `data` member
(`FactoryModule::data`, src/source/core/FactoryModule.hpp lines 56–61). -/
structure FactoryWorld where
  managers : List ManagerData

/-- A factory product: it can reach its own manager only
(`ProductTemplate::GetManager`, src/source/core/FactoryModule.hpp lines 36–42). -/
structure Product where
  managerIdx : Nat

/-- `ProductTemplate::SharedData` (src/source/core/FactoryModule.hpp lines
44–45): reading through any product resolves to its manager's `data` member. -/
def SharedData (w : FactoryWorld) (o : Product) : ManagerData :=
  w.managers.getD o.managerIdx defaultMD

/-- Functional update of one field of a record. -/
def setMD (d : ManagerData) (f : MDField) (v : TraitVal) : ManagerData :=
  fun f2 => if f2 = f then v else d f2

/-- Writing `org.SharedData().f = v`: mutates the one `data` member of the
organism's manager in place. -/
def writeSharedData (w : FactoryWorld) (o : Product) (f : MDField) (v : TraitVal) :
    FactoryWorld :=
  { managers := w.managers.set o.managerIdx (setMD (SharedData w o) f v) }

/-- C7: all organisms produced by one manager observe a single shared
`ManagerData` instance: a write of `v` into field `f` through organism `a` is
immediately read back as `v` through every organism `b` of the same manager,
and every other field reads unchanged. -/
theorem C7_shared_manager_data (w : FactoryWorld) (a b : Product)
    (f : MDField) (v : TraitVal)
    (hsame : a.managerIdx = b.managerIdx)
    (hlt : a.managerIdx < w.managers.length) :
    SharedData (writeSharedData w a f v) b f = v
    ∧ ∀ f2, f2 ≠ f → SharedData (writeSharedData w a f v) b f2 = SharedData w b f2 := by
  constructor
  · unfold SharedData writeSharedData
    rw [← hsame, getD_set_self _ _ _ _ hlt]
    simp [setMD]
  · intro f2 hf2
    unfold SharedData writeSharedData
    rw [← hsame, getD_set_self _ _ _ _ hlt]
    simp [setMD, hf2, SharedData]

/-- Witness for C7: two products of manager 0 in a two-manager world. -/
theorem C7_shared_manager_data_witness :
    SharedData (writeSharedData ⟨[defaultMD, defaultMD]⟩ ⟨0⟩ MDField.mutProb
        (TraitVal.q (1/20))) ⟨0⟩ MDField.mutProb = TraitVal.q (1/20)
    ∧ ∀ f2, f2 ≠ MDField.mutProb →
        SharedData (writeSharedData ⟨[defaultMD, defaultMD]⟩ ⟨0⟩ MDField.mutProb
          (TraitVal.q (1/20))) ⟨0⟩ f2
        = SharedData ⟨[defaultMD, defaultMD]⟩ ⟨0⟩ f2 :=
  C7_shared_manager_data ⟨[defaultMD, defaultMD]⟩ ⟨0⟩ ⟨0⟩ MDField.mutProb
    (TraitVal.q (1/20)) rfl (by decide)

/-- `OrgPosition`: population id (`PopPtr()->GetID()`) and slot (`Pos()`). -/
structure OrgPosition where
  popId : Nat
  pos : Nat
deriving DecidableEq, Repr

/-- An organism slot as relevant to `AnnotatePlacement_Position`: where the
organism sits, whether it is alive, and its position trait (`org_pos`,
`none` while unwritten). -/
structure PlacedOrg where
  position : OrgPosition
  alive : Bool := true
  org_pos : Option OrgPosition := none
deriving DecidableEq, Repr

/-- Default slot used for out-of-range accesses in statements. -/
def placedDefault : PlacedOrg := ⟨⟨0, 0⟩, true, none⟩

/-- `AnnotatePlacement_Position::OnPlacement`
(src/source/placement/AnnotatePlacement_Position.hpp lines 46–51): when the
placed position's population id equals the configured target population,
store the position itself into the position trait of the organism at that
position; otherwise do nothing. -/
def OnPlacement (popId : Nat) (w : List PlacedOrg) (p : OrgPosition) : List PlacedOrg :=
  if p.popId = popId then
    w.map (fun o => if o.position = p then { o with org_pos := some p } else o)
  else w

/-- Modelled from the spec: the generational loop (`MABE.hpp`) is not under
`src/`. "Fire `OnPlacement(pos)` for each new organism": the placement phase
fires the hook once per placed position, in order. -/
def runPlacements (popId : Nat) (w : List PlacedOrg) (events : List OrgPosition) :
    List PlacedOrg :=
  events.foldl (OnPlacement popId) w

theorem onPlacement_getD (popId : Nat) (w : List PlacedOrg) (p : OrgPosition)
    (i : Nat) (hi : i < w.length) :
    (OnPlacement popId w p).length = w.length
    ∧ ((OnPlacement popId w p).getD i placedDefault).position
        = (w.getD i placedDefault).position
    ∧ ((OnPlacement popId w p).getD i placedDefault).alive
        = (w.getD i placedDefault).alive
    ∧ ((OnPlacement popId w p).getD i placedDefault).org_pos
        = if p.popId = popId ∧ (w.getD i placedDefault).position = p
          then some p else (w.getD i placedDefault).org_pos := by
  unfold OnPlacement
  by_cases hp : p.popId = popId
  · rw [if_pos hp]
    have hi' : i < (w.map (fun o =>
        if o.position = p then { o with org_pos := some p } else o)).length := by
      simpa using hi
    rw [List.getD_eq_getElem _ _ hi', List.getElem_map, List.getD_eq_getElem _ _ hi]
    by_cases ho : w[i].position = p
    · rw [if_pos ho]
      refine ⟨by simp, rfl, rfl, ?_⟩
      rw [if_pos ⟨hp, ho⟩]
    · rw [if_neg ho]
      refine ⟨by simp, rfl, rfl, ?_⟩
      rw [if_neg (fun hc => ho hc.2)]
  · rw [if_neg hp]
    refine ⟨rfl, rfl, rfl, ?_⟩
    rw [if_neg (fun hc => hp hc.1)]

/-- Net effect of a placement-event sequence on slot `i`: position and
alive-ness are untouched, and the position trait is written (with the slot's
own position) exactly when some event targeting this population hits the
slot's position. -/
theorem runPlacements_getD (popId : Nat) (w : List PlacedOrg)
    (events : List OrgPosition) (i : Nat) (hi : i < w.length) :
    (runPlacements popId w events).length = w.length
    ∧ ((runPlacements popId w events).getD i placedDefault).position
        = (w.getD i placedDefault).position
    ∧ ((runPlacements popId w events).getD i placedDefault).alive
        = (w.getD i placedDefault).alive
    ∧ ((runPlacements popId w events).getD i placedDefault).org_pos
        = if (w.getD i placedDefault).position ∈ events
              ∧ (w.getD i placedDefault).position.popId = popId
          then some (w.getD i placedDefault).position
          else (w.getD i placedDefault).org_pos := by
  induction events generalizing w with
  | nil =>
    refine ⟨rfl, rfl, rfl, ?_⟩
    rw [if_neg (fun hc => List.not_mem_nil _ hc.1)]
    rfl
  | cons p rest ih =>
    obtain ⟨hlen, hposn, haliv, htrait⟩ := onPlacement_getD popId w p i hi
    have hstep : runPlacements popId w (p :: rest)
        = runPlacements popId (OnPlacement popId w p) rest := rfl
    obtain ⟨ihlen, ihpos, ihaliv, ihtrait⟩ := ih (OnPlacement popId w p) (hlen ▸ hi)
    rw [hstep]
    refine ⟨by rw [ihlen, hlen], by rw [ihpos, hposn], by rw [ihaliv, haliv], ?_⟩
    rw [ihtrait, hposn, htrait]
    set q := (w.getD i placedDefault).position with hq
    by_cases h1 : q ∈ rest ∧ q.popId = popId
    · rw [if_pos h1, if_pos ⟨List.mem_cons_of_mem _ h1.1, h1.2⟩]
    · rw [if_neg h1]
      by_cases h2 : p.popId = popId ∧ q = p
      · rw [if_pos h2, if_pos ⟨h2.2 ▸ List.mem_cons_self _ _, h2.2 ▸ h2.1⟩, h2.2]
      · rw [if_neg h2]
        rw [if_neg ?hc]
        intro hc
        rcases List.mem_cons.mp hc.1 with hqp | hqr
        · exact h2 ⟨hqp ▸ hc.2, hqp⟩
        · exact h1 ⟨hqr, hc.2⟩

/-- C8: when the generation's placement events include every alive organism of
the target population (the hook fires at each organism's own position), every
alive organism of that population ends with its position trait equal to its
`OrgPosition`; an organism of any other population never has the trait
written by these events. -/
theorem C8_annotate_placement (popId : Nat) (w : List PlacedOrg)
    (events : List OrgPosition) (i : Nat) (hi : i < w.length) :
    ((w.getD i placedDefault).alive = true →
      (w.getD i placedDefault).position.popId = popId →
      (w.getD i placedDefault).position ∈ events →
      ((runPlacements popId w events).getD i placedDefault).org_pos
        = some ((w.getD i placedDefault).position))
    ∧ ((w.getD i placedDefault).position.popId ≠ popId →
      ((runPlacements popId w events).getD i placedDefault).org_pos
        = (w.getD i placedDefault).org_pos) := by
  obtain ⟨_, _, _, htrait⟩ := runPlacements_getD popId w events i hi
  constructor
  · intro _ hpop hmem
    rw [htrait, if_pos ⟨hmem, hpop⟩]
  · intro hne
    rw [htrait, if_neg (fun hc => hne hc.2)]

/-- Witness for C8: two slots, one in the target population 0 (annotated) and
one in population 1 (left unwritten). -/
theorem C8_annotate_placement_witness :
    ((([(⟨⟨0, 0⟩, true, none⟩ : PlacedOrg), ⟨⟨1, 0⟩, true, none⟩].getD 0
          placedDefault).alive = true) →
      ([(⟨⟨0, 0⟩, true, none⟩ : PlacedOrg), ⟨⟨1, 0⟩, true, none⟩].getD 0
          placedDefault).position.popId = 0 →
      ([(⟨⟨0, 0⟩, true, none⟩ : PlacedOrg), ⟨⟨1, 0⟩, true, none⟩].getD 0
          placedDefault).position ∈ [(⟨0, 0⟩ : OrgPosition), ⟨1, 0⟩] →
      ((runPlacements 0 [⟨⟨0, 0⟩, true, none⟩, ⟨⟨1, 0⟩, true, none⟩]
          [⟨0, 0⟩, ⟨1, 0⟩]).getD 0 placedDefault).org_pos
        = some (([(⟨⟨0, 0⟩, true, none⟩ : PlacedOrg), ⟨⟨1, 0⟩, true, none⟩].getD 0
            placedDefault).position))
    ∧ (([(⟨⟨0, 0⟩, true, none⟩ : PlacedOrg), ⟨⟨1, 0⟩, true, none⟩].getD 0
          placedDefault).position.popId ≠ 0 →
      ((runPlacements 0 [⟨⟨0, 0⟩, true, none⟩, ⟨⟨1, 0⟩, true, none⟩]
          [⟨0, 0⟩, ⟨1, 0⟩]).getD 0 placedDefault).org_pos
        = ([(⟨⟨0, 0⟩, true, none⟩ : PlacedOrg), ⟨⟨1, 0⟩, true, none⟩].getD 0
            placedDefault).org_pos) :=
  C8_annotate_placement 0 [⟨⟨0, 0⟩, true, none⟩, ⟨⟨1, 0⟩, true, none⟩]
    [⟨0, 0⟩, ⟨1, 0⟩] 0 (by decide)

end MABE

namespace MABE

/-- Modelled from the spec: `orgs/VirtualCPUOrg.hpp` is not under `src/`; only
its unit test is (src/tests/unit/orgs/VirtualCPUOrg.cpp). The organism state
the test observes: the genome (instruction sequence), the `merit` and
`child_merit` traits, and the instruction pointer. -/
structure VCPUOrg where
  genome : List Nat
  merit : ℚ
  child_merit : ℚ
  inst_ptr : Nat
deriving DecidableEq, Repr

/-- The piece of the per-kind `ManagerData` relevant here: `initial_merit`. -/
structure VCPUConfig where
  initial_merit : ℚ
deriving DecidableEq, Repr

/-- Modelled from the spec: `VirtualCPUOrg`'s clone path
(`OrganismManager::CloneOrganism`, src/source/core/OrganismManager.h lines
49–52, specialized by the organism) is pinned by the unit test's assertions
(src/tests/unit/orgs/VirtualCPUOrg.cpp lines 232–259): the clone's genome and
`merit` equal the parent's, its `child_merit` is re-initialized to the
manager's `initial_merit`, and its instruction pointer starts at 0. -/
def CloneOrganism (cfg : VCPUConfig) (o : VCPUOrg) : VCPUOrg :=
  { genome := o.genome
    merit := o.merit
    child_merit := cfg.initial_merit
    inst_ptr := 0 }

/-- Modelled from the spec: `MakeOffspringOrganism` is pinned by the unit
test's assertions (src/tests/unit/orgs/VirtualCPUOrg.cpp lines 260–307): the
offspring's genome is the parent's genome run through the mutation operator,
its `merit` is set from the parent's `child_merit`, its `child_merit` is
re-initialized to `initial_merit`, and its instruction pointer starts at 0. -/
def MakeOffspringOrganism (cfg : VCPUConfig) (mutate : List Nat → List Nat)
    (o : VCPUOrg) : VCPUOrg :=
  { genome := mutate o.genome
    merit := o.child_merit
    child_merit := cfg.initial_merit
    inst_ptr := 0 }

/-- C4 counterexample: parent with `merit = 2`, `child_merit = 3` under
`initial_merit = 0`. The clone's `child_merit` trait is 0, not the parent's 3
(so not every Owned trait is copied), and with mutation disabled
`MakeOffspring` differs from `Clone` followed by `Mutate`: the offspring's
`merit` is 3 (the parent's `child_merit`), the mutated clone's is 2. -/
theorem C4_counterexample :
    (CloneOrganism ⟨0⟩ ⟨[1, 2, 3], 2, 3, 1⟩).child_merit
        ≠ (⟨[1, 2, 3], 2, 3, 1⟩ : VCPUOrg).child_merit
    ∧ MakeOffspringOrganism ⟨0⟩ id ⟨[1, 2, 3], 2, 3, 1⟩
        ≠ CloneOrganism ⟨0⟩ ⟨[1, 2, 3], 2, 3, 1⟩ := by
  constructor
  · show (0 : ℚ) ≠ 3
    norm_num
  · intro h
    have hm : (3 : ℚ) = 2 := congrArg VCPUOrg.merit h
    norm_num at hm

/-- C4 (amended): `Clone(o)` copies the genome and the `merit` trait but
re-initializes `child_merit` to the manager's `initial_merit` and resets the
instruction pointer to 0; `MakeOffspring(o, rng)` equals `Clone(o)` with the
mutation operator applied to the genome, except that the offspring's `merit`
is set from the parent's `child_merit`. -/
theorem C4_clone_offspring (cfg : VCPUConfig) (o : VCPUOrg)
    (mutate : List Nat → List Nat) :
    (CloneOrganism cfg o).genome = o.genome
    ∧ (CloneOrganism cfg o).merit = o.merit
    ∧ (CloneOrganism cfg o).child_merit = cfg.initial_merit
    ∧ (CloneOrganism cfg o).inst_ptr = 0
    ∧ MakeOffspringOrganism cfg mutate o
        = { CloneOrganism cfg o with
              genome := mutate (CloneOrganism cfg o).genome
              merit := o.child_merit } :=
  ⟨rfl, rfl, rfl, rfl, rfl⟩

end MABE
